import Mathlib

/-!
Verification of olazyllama (a terminal dashboard for an Ollama server).

Shallow embedding of the two source files:
  * `src/internal/ollama/client.go` — the backend client: `Model`,
    `ListLocalModels`, `ListRunning`, `HumanSize`, `WithTimeout`.
  * `src/main.go` — the dashboard controller: the rolling status log
    (`logf`), the layout computation, the render projections
    (`drawInstalled`/`drawRunning`), the refresh merge logic
    (`refreshAll`), and the `safeUpdate` guard.

The HTTP transport is abstracted as a `FetchOutcome` value (transport
failure, or a response with a status code, a status text and a body);
JSON decoding of the `{"models": [...]}` payload is abstracted as a
`Body` value (malformed, or a decoded optional `models` array).
-/

/-! ## src/internal/ollama/client.go -/

/-- `Model` from client.go: name, optional digest, size in bytes
(`int64`, modelled as `Int`). Missing JSON fields default to `""`/`0`. -/
structure Model where
  name : String
  digest : String := ""
  size : Int := 0
deriving DecidableEq

/-- The errors a list call can produce, mirroring the three ways the Go
functions return a non-nil error: a transport error propagated from
`http.Client.Do`, the `fmt.Errorf("<endpoint>: %s", res.Status)` built on a
non-200 status, and a JSON decode error. -/
inductive FetchError where
  | transport (msg : String)
  | backend (endpoint : String) (statusText : String)
  | decode (msg : String)
deriving DecidableEq

/-- The `%v` rendering of the error, as interpolated by `logf`. -/
def FetchError.message : FetchError → String
  | .transport m => m
  | .backend ep st => ep ++ ": " ++ st
  | .decode m => m

/-- Abstraction of the response body as seen by `json.Decoder.Decode` into
`struct { Models []Model }`: either malformed JSON, or a decoded payload
whose `models` key is absent (`none`, leaving the Go slice nil) or present. -/
inductive Body where
  | malformed (msg : String)
  | valid (models : Option (List Model))
deriving DecidableEq

/-- Abstraction of one HTTP round trip: `http.Client.Do` either fails with a
transport error or yields a response with a numeric status code, a status
text (Go `res.Status`, e.g. "500 Internal Server Error") and a body. -/
inductive FetchOutcome where
  | transportFailure (msg : String)
  | response (statusCode : Nat) (status : String) (body : Body)
deriving DecidableEq

/-- `ListLocalModels` from client.go, as a function of the single HTTP round
trip it performs against `/api/tags`: propagate transport errors; reject any
non-200 status with `fmt.Errorf("tags: %s", res.Status)`; propagate decode
errors; otherwise return `payload.Models` (the empty list when the `models`
key is absent, since the nil slice has length 0). -/
def ListLocalModels (o : FetchOutcome) : Except FetchError (List Model) :=
  match o with
  | .transportFailure m => .error (.transport m)
  | .response code status body =>
    if code ≠ 200 then .error (.backend "tags" status)
    else match body with
      | .malformed m => .error (.decode m)
      | .valid models => .ok (models.getD [])

/-- `ListRunning` from client.go: identical to `ListLocalModels` but against
`/api/ps`, with the non-200 error reading `fmt.Errorf("ps: %s", res.Status)`. -/
def ListRunning (o : FetchOutcome) : Except FetchError (List Model) :=
  match o with
  | .transportFailure m => .error (.transport m)
  | .response code status body =>
    if code ≠ 200 then .error (.backend "ps" status)
    else match body with
      | .malformed m => .error (.decode m)
      | .valid models => .ok (models.getD [])

/-- Round `100 * num / den` to the nearest integer, ties to even — the value
whose hundredth part Go's `fmt.Sprintf("%.2f", float64(num)/float64(den))`
prints. `den` is always a power of two here, so for `num < 2^53` the float
division is exact and Go's correctly-rounded, ties-to-even decimal output
coincides with this exact rational rounding digit for digit. -/
def round2 (num den : Nat) : Nat :=
  let s := 100 * num
  let q := s / den
  let r := s % den
  if 2 * r < den then q
  else if den < 2 * r then q + 1
  else if q % 2 = 0 then q else q + 1

/-- Render a count of hundredths as a fixed-point numeral with exactly two
decimal places, the shape `%.2f` produces for nonnegative values. -/
def showCenti (q : Nat) : String :=
  toString (q / 100) ++ "." ++ (if q % 100 < 10 then "0" else "") ++ toString (q % 100)

/-- `HumanSize` from client.go: GiB/MiB/KiB with two decimals for
`n ≥ 2^30 / 2^20 / 2^10`, a raw byte count for `0 < n`, `"-"` otherwise. -/
def HumanSize (n : Int) : String :=
  if n ≥ 1073741824 then showCenti (round2 n.toNat 1073741824) ++ " GiB"
  else if n ≥ 1048576 then showCenti (round2 n.toNat 1048576) ++ " MiB"
  else if n ≥ 1024 then showCenti (round2 n.toNat 1024) ++ " KiB"
  else if n > 0 then toString n ++ " B"
  else "-"

/-- Contexts, as far as `WithTimeout` manipulates them: a context is either a
root or derived from a parent with a deadline `d` from now. -/
inductive Ctx where
  | background
  | withDeadline (parent : Ctx) (d : Int)
deriving DecidableEq

/-- A cancel function: either the no-op closure `func() {}` or the real
cancel of a specific derived context. -/
inductive CancelFn where
  | noop
  | cancelOf (c : Ctx)
deriving DecidableEq

/-- Which context a cancel function cancels: the no-op cancels nothing; the
real cancel of a derived context cancels exactly that context (cancelling a
child context never cancels its parent). -/
def CancelFn.cancels : CancelFn → Ctx → Prop
  | .noop, _ => False
  | .cancelOf c, t => t = c

instance (f : CancelFn) (t : Ctx) : Decidable (f.cancels t) := by
  cases f with
  | noop => exact isFalse (fun h => h)
  | cancelOf c => exact inferInstanceAs (Decidable (t = c))

/-- `WithTimeout` from client.go: for `d ≤ 0` return the original context and
a no-op cancel; for `d > 0` return `context.WithTimeout(ctx, d)` — a context
derived from `ctx` with deadline `d` and its real cancel function. -/
def WithTimeout (ctx : Ctx) (d : Int) : Ctx × CancelFn :=
  if d ≤ 0 then (ctx, .noop)
  else (.withDeadline ctx d, .cancelOf (.withDeadline ctx d))

/-! ## src/main.go -/

/-- The pure core of `logf`: append the formatted line to `statusLines` and,
when the buffer exceeds 5 lines, keep only the last 5
(`a.statusLines = a.statusLines[len(a.statusLines)-5:]`). -/
def logfLine (lines : List String) (msg : String) : List String :=
  let ls := lines ++ [msg]
  if 5 < ls.length then ls.drop (ls.length - 5) else ls

/-- The text `logf` writes into the status view:
`strings.Join(a.statusLines, " | ")`. -/
def statusText (lines : List String) : String :=
  String.intercalate " | " lines

/-- The mutable dashboard state of `App` that the refresh path touches:
installed models, running models, and the rolling status log. -/
structure AppState where
  installed : List Model
  running : List Model
  statusLines : List String
deriving DecidableEq

/-- The body of the `a.safeUpdate(...)` closure in `refreshAll`, as a state
transformer over the two fetch results: on a fetch error log
`"Installed: %v"` / `"Running: %v"` and keep the prior list, otherwise
replace the list with the fetched snapshot; log `"Refreshed"` iff both
fetches succeeded. -/
def applyRefreshUpdate (s : AppState) (r1 r2 : Except FetchError (List Model)) : AppState :=
  let s1 := match r1 with
    | .error e => { s with statusLines := logfLine s.statusLines ("Installed: " ++ e.message) }
    | .ok installed => { s with installed := installed }
  let s2 := match r2 with
    | .error e => { s1 with statusLines := logfLine s1.statusLines ("Running: " ++ e.message) }
    | .ok running => { s1 with running := running }
  match r1, r2 with
  | .ok _, .ok _ => { s2 with statusLines := logfLine s2.statusLines "Refreshed" }
  | _, _ => s2

/-- `refreshAll` from main.go, as a function of the two fetch results: log
`"Refreshing..."` first, then apply the completion update. -/
def refreshAll (s : AppState) (r1 r2 : Except FetchError (List Model)) : AppState :=
  applyRefreshUpdate { s with statusLines := logfLine s.statusLines "Refreshing..." } r1 r2

/-- The status-log messages one whole refresh appends, in order: the
completion handler's messages after the initial `"Refreshing..."`. -/
def refreshAppendedMessages (r1 r2 : Except FetchError (List Model)) : List String :=
  "Refreshing..." ::
    ((match r1 with | .error e => ["Installed: " ++ e.message] | .ok _ => []) ++
     (match r2 with | .error e => ["Running: " ++ e.message] | .ok _ => []) ++
     (match r1, r2 with | .ok _, .ok _ => ["Refreshed"] | _, _ => []))

/-- Left-justify a string in a minimum field width of `w` characters, Go's
`%-40s` padding (never truncates). -/
def padRightTo (s : String) (w : Nat) : String :=
  s ++ String.mk (List.replicate (w - s.length) ' ')

/-- The lines `drawInstalled` prints into the "Installed Models" view: the
placeholder for an empty list, otherwise one line per model — the name
alone when `Size ≤ 0`, else `fmt.Sprintf("%-40s  %s", m.Name,
ollama.HumanSize(m.Size))`. -/
def drawInstalledLines (installed : List Model) : List String :=
  if installed.length = 0 then ["(no models installed)"]
  else installed.map fun m =>
    if m.size > 0 then padRightTo m.name 40 ++ "  " ++ HumanSize m.size else m.name

/-- The lines `drawRunning` prints into the "Running (ollama ps)" view: the
placeholder for an empty list, otherwise one line per model name. -/
def drawRunningLines (running : List Model) : List String :=
  if running.length = 0 then ["(nothing running)"]
  else running.map fun m => m.name

/-- A view rectangle as passed to `gocui.SetView(name, x0, y0, x1, y1)`. -/
structure Rect where
  x0 : Int
  y0 : Int
  x1 : Int
  y1 : Int
deriving DecidableEq

/-- The three rectangles `layout` computes from the terminal size, in order
installed, running, status: `statusH = 2`, `bodyH = maxY - statusH` unless
that is `< 3` in which case `bodyH = maxY`, and `halfX = maxX / 2`. -/
def layout (maxX maxY : Nat) : Rect × Rect × Rect :=
  let statusH : Int := 2
  let bodyH0 : Int := (maxY : Int) - statusH
  let bodyH : Int := if bodyH0 < 3 then (maxY : Int) else bodyH0
  let halfX : Int := ((maxX / 2 : Nat) : Int)
  (⟨0, 0, halfX - 1, bodyH - 1⟩,
   ⟨halfX, 0, (maxX : Int) - 1, bodyH - 1⟩,
   ⟨0, bodyH, (maxX : Int) - 1, (maxY : Int) - 1⟩)

/-- The two endpoints one refresh queries. -/
inductive Endpoint where
  | tags
  | ps
deriving DecidableEq, BEq

/-- One step of the background goroutine `refreshAll` spawns: issuing a
request to an endpoint, receiving (awaiting) its result, or running the
state-mutating completion closure. -/
inductive Step where
  | issue (e : Endpoint)
  | await (e : Endpoint)
  | mutateState
deriving DecidableEq, BEq

/-- The operation order of the goroutine body in `refreshAll` (main.go):
`a.client.ListLocalModels(ctx)` is a synchronous call (issue `/api/tags`,
then block for its result), then `a.client.ListRunning(ctx)` likewise, then
`a.safeUpdate(...)` runs the completion closure that mutates state. -/
def refreshGoroutineSteps : List Step :=
  [.issue .tags, .await .tags, .issue .ps, .await .ps, .mutateState]

/-- Position of a step in a trace. -/
def stepIdx (t : List Step) (s : Step) : Nat :=
  t.indexOf s

/-- A trace issues the two fetches concurrently when both requests are on
the wire before either result is awaited. -/
def issuesConcurrently (t : List Step) : Prop :=
  stepIdx t (.issue .tags) < stepIdx t (.await .tags) ∧
  stepIdx t (.issue .tags) < stepIdx t (.await .ps) ∧
  stepIdx t (.issue .ps) < stepIdx t (.await .tags) ∧
  stepIdx t (.issue .ps) < stepIdx t (.await .ps)

instance (t : List Step) : Decidable (issuesConcurrently t) := by
  unfold issuesConcurrently; infer_instance

/-- The GUI operations a scheduled update closure performs, identified by
the view it redraws and the content it writes. -/
inductive GuiOp where
  | redrawStatus (text : String)
  | redrawInstalled (lines : List String)
  | redrawRunning (lines : List String)
  | applyRefreshResults
deriving DecidableEq

/-- `safeUpdate` from main.go: when `a.gui == nil` return without touching
the GUI; otherwise schedule the update closure via `a.gui.Update`. The
result is the list of GUI operations actually scheduled. -/
def safeUpdate (gui : Option Unit) (op : GuiOp) : List GuiOp :=
  match gui with
  | none => []
  | some _ => [op]

/-- `logf` from main.go with its GUI effect: update the rolling buffer, then
schedule (via `safeUpdate`) a redraw of the status view with the joined
lines. Returns the new buffer and the scheduled GUI operations. -/
def logf (gui : Option Unit) (lines : List String) (msg : String) :
    List String × List GuiOp :=
  let lines1 := logfLine lines msg
  (lines1, safeUpdate gui (.redrawStatus (statusText lines1)))

/-- `drawInstalled` from main.go as its scheduled GUI effect. -/
def drawInstalled (gui : Option Unit) (installed : List Model) : List GuiOp :=
  safeUpdate gui (.redrawInstalled (drawInstalledLines installed))

/-- `drawRunning` from main.go as its scheduled GUI effect. -/
def drawRunning (gui : Option Unit) (running : List Model) : List GuiOp :=
  safeUpdate gui (.redrawRunning (drawRunningLines running))

/-! ## Helper lemmas -/

/-- The last (at most) 5 elements of a list. -/
def lastN (l : List String) : List String :=
  l.drop (l.length - 5)

theorem logfLine_eq_lastN (ls : List String) (m : String) :
    logfLine ls m = lastN (ls ++ [m]) := by
  simp only [logfLine, lastN]
  split
  · rfl
  · next h =>
    have hlen : (ls ++ [m]).length = ls.length + 1 := by simp
    have h0 : (ls ++ [m]).length - 5 = 0 := by omega
    rw [h0, List.drop_zero]

theorem lastN_length_le (l : List String) : (lastN l).length ≤ 5 := by
  unfold lastN
  simp only [List.length_drop]
  omega

theorem lastN_eq_of_le (l : List String) (h : l.length ≤ 5) : lastN l = l := by
  unfold lastN
  have : l.length - 5 = 0 := by omega
  simp [this]

theorem lastN_append (l r : List String) : lastN (lastN l ++ r) = lastN (l ++ r) := by
  by_cases hl : l.length ≤ 5
  · rw [lastN_eq_of_le l hl]
  · have hk : l.length - 5 ≤ l.length := by omega
    have h1 : lastN l ++ r = (l ++ r).drop (l.length - 5) := by
      rw [List.drop_append_of_le_length hk]; rfl
    rw [h1]
    unfold lastN
    rw [List.drop_drop]
    congr 1
    simp only [List.length_drop, List.length_append]
    omega

theorem foldl_logfLine (msgs : List String) (start : List String)
    (h : msgs ≠ [] ∨ start.length ≤ 5) :
    msgs.foldl logfLine start = lastN (start ++ msgs) := by
  induction msgs generalizing start with
  | nil =>
    rcases h with h | h
    · exact absurd rfl h
    · simp [lastN_eq_of_le start h]
  | cons m rest ih =>
    simp only [List.foldl_cons]
    rw [ih (logfLine start m) (Or.inr (by rw [logfLine_eq_lastN]; exact lastN_length_le _))]
    rw [logfLine_eq_lastN, lastN_append]
    simp

theorem lastN_append_of_ge (start msgs : List String) (h : 5 ≤ msgs.length) :
    lastN (start ++ msgs) = msgs.drop (msgs.length - 5) := by
  unfold lastN
  have hlen : (start ++ msgs).length - 5 = start.length + (msgs.length - 5) := by
    simp only [List.length_append]; omega
  rw [hlen, ← List.drop_drop, List.drop_left]

theorem logfLine_getLast (ls : List String) (m : String) :
    (logfLine ls m).getLast? = some m := by
  rw [logfLine_eq_lastN]
  unfold lastN
  by_cases h : (ls ++ [m]).length ≤ 5
  · have : (ls ++ [m]).length - 5 = 0 := by omega
    rw [this, List.drop_zero, List.getLast?_concat]
  · have hlen : (ls ++ [m]).length = ls.length + 1 := by simp
    have hk : (ls ++ [m]).length - 5 ≤ ls.length := by omega
    rw [List.drop_append_of_le_length hk, List.getLast?_concat]

theorem mem_logfLine (ls : List String) (m : String) : m ∈ logfLine ls m := by
  rw [logfLine_eq_lastN]
  unfold lastN
  by_cases h : (ls ++ [m]).length ≤ 5
  · have : (ls ++ [m]).length - 5 = 0 := by omega
    rw [this, List.drop_zero]
    simp
  · have hlen : (ls ++ [m]).length = ls.length + 1 := by simp
    have hk : (ls ++ [m]).length - 5 ≤ ls.length := by omega
    rw [List.drop_append_of_le_length hk]
    simp

/-- A refresh's status log is the fold of its appended messages over the
prior log. -/
theorem refreshAll_statusLines (s : AppState) (r1 r2 : Except FetchError (List Model)) :
    (refreshAll s r1 r2).statusLines =
      (refreshAppendedMessages r1 r2).foldl logfLine s.statusLines := by
  cases r1 <;> cases r2 <;>
    simp [refreshAll, applyRefreshUpdate, refreshAppendedMessages]

theorem refreshAll_installed (s : AppState) (r1 r2 : Except FetchError (List Model)) :
    (refreshAll s r1 r2).installed =
      match r1 with | .ok l => l | .error _ => s.installed := by
  cases r1 <;> cases r2 <;> simp [refreshAll, applyRefreshUpdate]

theorem refreshAll_running (s : AppState) (r1 r2 : Except FetchError (List Model)) :
    (refreshAll s r1 r2).running =
      match r2 with | .ok l => l | .error _ => s.running := by
  cases r1 <;> cases r2 <;> simp [refreshAll, applyRefreshUpdate]

theorem installed_line_ne_refreshed (m : String) : "Installed: " ++ m ≠ "Refreshed" := by
  intro h
  have h2 := congrArg String.data h
  rw [String.data_append] at h2
  simp at h2

theorem running_line_ne_refreshed (m : String) : "Running: " ++ m ≠ "Refreshed" := by
  intro h
  have h2 := congrArg String.data h
  rw [String.data_append] at h2
  simp at h2

/-- `round2 num den` is within half a unit (of the last decimal place) of the
exact value `100 * num / den`: the two-decimal numeral it feeds to
`showCenti` is a correct rounding. -/
theorem round2_close (num den : Nat) (hden : 0 < den) :
    2 * (round2 num den * den) ≤ 2 * (100 * num) + den ∧
    2 * (100 * num) ≤ 2 * (round2 num den * den) + den := by
  simp only [round2]
  have hqr : den * (100 * num / den) + 100 * num % den = 100 * num := Nat.div_add_mod _ _
  have hrlt : 100 * num % den < den := Nat.mod_lt _ hden
  have hcomm : (100 * num / den) * den = den * (100 * num / den) := Nat.mul_comm _ _
  have hcomm1 : (100 * num / den + 1) * den = den * (100 * num / den) + den := by
    rw [Nat.add_mul, Nat.one_mul, Nat.mul_comm]
  obtain ⟨t, ht⟩ : ∃ t, den * (100 * num / den) = t := ⟨_, rfl⟩
  rw [ht] at hqr hcomm hcomm1
  split
  · rw [hcomm]; omega
  · split
    · rw [hcomm1]; omega
    · split
      · rw [hcomm]; omega
      · rw [hcomm1]; omega

/-! ## Claims -/

/-- Claim C3: `HumanSize` is a pure total function over all inputs: for
`n ≤ 0` it returns the dash sentinel `"-"`; for `n` in `[1, 1023]` it
returns `"<n> B"`; for `n` in `[1024, 2^20-1]` the value in KiB with two
decimals; for `n` in `[2^20, 2^30-1]` MiB with two decimals; for
`n ≥ 2^30` GiB with two decimals — where "with two decimals" means the
two-decimal fixed-point numeral `showCenti (round2 n _)`, a correct
rounding of the quotient (sixth conjunct) — and the boundaries are exact:
`HumanSize 1024 = "1.00 KiB"`, `HumanSize 1048576 = "1.00 MiB"`,
`HumanSize 1073741824 = "1.00 GiB"`. -/
theorem humanSize_spec (n : Int) :
    (n ≤ 0 → HumanSize n = "-") ∧
    (1 ≤ n → n ≤ 1023 → HumanSize n = toString n ++ " B") ∧
    (1024 ≤ n → n ≤ 1048575 → HumanSize n = showCenti (round2 n.toNat 1024) ++ " KiB") ∧
    (1048576 ≤ n → n ≤ 1073741823 →
      HumanSize n = showCenti (round2 n.toNat 1048576) ++ " MiB") ∧
    (1073741824 ≤ n → HumanSize n = showCenti (round2 n.toNat 1073741824) ++ " GiB") ∧
    (∀ num den : Nat, 0 < den →
      2 * (round2 num den * den) ≤ 2 * (100 * num) + den ∧
      2 * (100 * num) ≤ 2 * (round2 num den * den) + den) ∧
    HumanSize 1024 = "1.00 KiB" ∧
    HumanSize 1048576 = "1.00 MiB" ∧
    HumanSize 1073741824 = "1.00 GiB" := by
  refine ⟨?_, ?_, ?_, ?_, ?_, fun num den h => round2_close num den h, by decide, by decide,
    by decide⟩
  · intro h
    unfold HumanSize
    rw [if_neg (by omega), if_neg (by omega), if_neg (by omega), if_neg (by omega)]
  · intro h1 h2
    unfold HumanSize
    rw [if_neg (by omega), if_neg (by omega), if_neg (by omega), if_pos (by omega)]
  · intro h1 h2
    unfold HumanSize
    rw [if_neg (by omega), if_neg (by omega), if_pos (by omega)]
  · intro h1 h2
    unfold HumanSize
    rw [if_neg (by omega), if_pos (by omega)]
  · intro h1
    unfold HumanSize
    rw [if_pos (by omega)]

/-- Witness for C3: the KiB branch applied at the concrete input 1536. -/
theorem humanSize_spec_witness :
    (1024 : Int) ≤ 1536 ∧ (1536 : Int) ≤ 1048575 ∧ HumanSize 1536 = "1.50 KiB" := by
  refine ⟨by norm_num, by norm_num, ?_⟩
  rw [(humanSize_spec 1536).2.2.1 (by norm_num) (by norm_num)]
  decide

/-- Claim C4: the status log is a bounded rolling buffer of capacity 5 that
every log operation preserves; for every start state and every sequence of
`k > 5` appended messages exactly the last 5 remain, in order, and the
rendered status line is those 5 joined by `" | "`. -/
theorem statusLog_spec (start msgs : List String) (h : 5 < msgs.length) :
    msgs.foldl logfLine start = msgs.drop (msgs.length - 5) ∧
    (msgs.foldl logfLine start).length = 5 ∧
    statusText (msgs.foldl logfLine start) =
      String.intercalate " | " (msgs.drop (msgs.length - 5)) ∧
    (∀ ls m, ls.length ≤ 5 → (logfLine ls m).length ≤ 5) := by
  have hne : msgs ≠ [] := by
    intro he
    rw [he] at h
    simp at h
  have hfold := (foldl_logfLine msgs start (Or.inl hne)).trans
    (lastN_append_of_ge start msgs (by omega))
  refine ⟨hfold, ?_, ?_, ?_⟩
  · rw [hfold]
    simp only [List.length_drop]
    omega
  · rw [hfold]
    rfl
  · intro ls m _
    rw [logfLine_eq_lastN]
    exact lastN_length_le _

/-- Witness for C4: seven messages folded into an empty log leave the last
five. -/
theorem statusLog_spec_witness :
    5 < (["a", "b", "c", "d", "e", "f", "g"] : List String).length ∧
    (["a", "b", "c", "d", "e", "f", "g"] : List String).foldl logfLine [] =
      ["c", "d", "e", "f", "g"] := by
  refine ⟨by decide, ?_⟩
  rw [(statusLog_spec [] ["a", "b", "c", "d", "e", "f", "g"] (by decide)).1]
  decide

/-- Claim C5: for both list calls, HTTP 200 with valid JSON returns the
parsed model sequence with no error; any non-200 response fails with an
error carrying the HTTP status text and returns no models; malformed JSON
fails with a decode error; a body `{}` with no `models` key yields the
empty list and no error. (Each call is a function of the single HTTP round
trip it performs — no retries.) -/
theorem listModels_spec :
    (∀ st ms, ListLocalModels (.response 200 st (.valid (some ms))) = .ok ms) ∧
    (∀ code st body, code ≠ 200 →
      ListLocalModels (.response code st body) = .error (.backend "tags" st) ∧
      (FetchError.backend "tags" st).message = "tags: " ++ st) ∧
    (∀ st m, ListLocalModels (.response 200 st (.malformed m)) = .error (.decode m)) ∧
    (∀ st, ListLocalModels (.response 200 st (.valid none)) = .ok []) ∧
    (∀ st ms, ListRunning (.response 200 st (.valid (some ms))) = .ok ms) ∧
    (∀ code st body, code ≠ 200 →
      ListRunning (.response code st body) = .error (.backend "ps" st) ∧
      (FetchError.backend "ps" st).message = "ps: " ++ st) ∧
    (∀ st m, ListRunning (.response 200 st (.malformed m)) = .error (.decode m)) ∧
    (∀ st, ListRunning (.response 200 st (.valid none)) = .ok []) := by
  refine ⟨fun st ms => rfl, fun code st body hc => ⟨?_, rfl⟩, fun st m => rfl, fun st => rfl,
    fun st ms => rfl, fun code st body hc => ⟨?_, rfl⟩, fun st m => rfl, fun st => rfl⟩
  · simp [ListLocalModels, hc]
  · simp [ListRunning, hc]

/-- Witness for C5: a 500 response against `/api/tags` fails with the
backend error carrying the status text. -/
theorem listModels_spec_witness :
    (500 : Nat) ≠ 200 ∧
    ListLocalModels (.response 500 "500 Internal Server Error" (.valid none)) =
      .error (.backend "tags" "500 Internal Server Error") := by
  refine ⟨by decide, ?_⟩
  exact (listModels_spec.2.1 500 "500 Internal Server Error" (.valid none) (by decide)).1

/-- Claim C1: when exactly one of the two fetches fails, the list whose
fetch failed retains its prior snapshot unchanged, the other list is
replaced by the fetched snapshot, the refresh appends exactly
`"Refreshing..."` followed by the failure line naming the failed list —
which is present in the final status log — and no `"Refreshed"` line is
appended. -/
theorem refresh_single_failure_spec (s : AppState) (e : FetchError)
    (l1 l2 : List Model) :
    ((refreshAll s (.error e) (.ok l2)).installed = s.installed ∧
     (refreshAll s (.error e) (.ok l2)).running = l2 ∧
     refreshAppendedMessages (.error e) (.ok l2) =
       ["Refreshing...", "Installed: " ++ e.message] ∧
     ("Installed: " ++ e.message) ∈ (refreshAll s (.error e) (.ok l2)).statusLines ∧
     "Refreshed" ∉ refreshAppendedMessages (.error e) (.ok l2)) ∧
    ((refreshAll s (.ok l1) (.error e)).running = s.running ∧
     (refreshAll s (.ok l1) (.error e)).installed = l1 ∧
     refreshAppendedMessages (.ok l1) (.error e) =
       ["Refreshing...", "Running: " ++ e.message] ∧
     ("Running: " ++ e.message) ∈ (refreshAll s (.ok l1) (.error e)).statusLines ∧
     "Refreshed" ∉ refreshAppendedMessages (.ok l1) (.error e)) := by
  refine ⟨⟨refreshAll_installed s _ _, refreshAll_running s _ _, rfl, ?_, ?_⟩,
    ⟨refreshAll_running s _ _, refreshAll_installed s _ _, rfl, ?_, ?_⟩⟩
  · simp only [refreshAll, applyRefreshUpdate]
    exact mem_logfLine _ _
  · intro hmem
    rw [show refreshAppendedMessages (Except.error e) (Except.ok l2) =
      ["Refreshing...", "Installed: " ++ e.message] from rfl] at hmem
    rcases List.mem_cons.mp hmem with h | h
    · exact absurd h (by decide)
    · rcases List.mem_cons.mp h with h2 | h2
      · exact installed_line_ne_refreshed e.message h2.symm
      · exact absurd h2 (List.not_mem_nil _)
  · simp only [refreshAll, applyRefreshUpdate]
    exact mem_logfLine _ _
  · intro hmem
    rw [show refreshAppendedMessages (Except.ok l1) (Except.error e) =
      ["Refreshing...", "Running: " ++ e.message] from rfl] at hmem
    rcases List.mem_cons.mp hmem with h | h
    · exact absurd h (by decide)
    · rcases List.mem_cons.mp h with h2 | h2
      · exact running_line_ne_refreshed e.message h2.symm
      · exact absurd h2 (List.not_mem_nil _)

/-- Witness for C1: a failed tags fetch against a concrete prior state. -/
theorem refresh_single_failure_spec_witness :
    (refreshAll ⟨[⟨"old", "", 0⟩], [], []⟩
        (.error (.backend "tags" "500 Internal Server Error")) (.ok [⟨"run", "", 0⟩])).installed =
      [⟨"old", "", 0⟩] ∧
    (refreshAll ⟨[⟨"old", "", 0⟩], [], []⟩
        (.error (.backend "tags" "500 Internal Server Error")) (.ok [⟨"run", "", 0⟩])).running =
      [⟨"run", "", 0⟩] := by
  have h := refresh_single_failure_spec ⟨[⟨"old", "", 0⟩], [], []⟩
    (.backend "tags" "500 Internal Server Error") [] [⟨"run", "", 0⟩]
  exact ⟨h.1.1, h.1.2.1⟩

/-- Claim C6: when both fetches succeed, `"Refreshing..."` is appended to
the status log first, both lists are replaced by the fetched snapshots, the
final status-log line is `"Refreshed"`, and a `"Refreshed"` line is
appended only in the both-succeed case. -/
theorem refresh_both_ok_spec (s : AppState) (l1 l2 : List Model) :
    (refreshAll s (.ok l1) (.ok l2)).installed = l1 ∧
    (refreshAll s (.ok l1) (.ok l2)).running = l2 ∧
    refreshAppendedMessages (.ok l1) (.ok l2) = ["Refreshing...", "Refreshed"] ∧
    (refreshAll s (.ok l1) (.ok l2)).statusLines =
      (["Refreshing...", "Refreshed"]).foldl logfLine s.statusLines ∧
    (refreshAll s (.ok l1) (.ok l2)).statusLines.getLast? = some "Refreshed" ∧
    (∀ r1 r2 : Except FetchError (List Model),
      "Refreshed" ∈ refreshAppendedMessages r1 r2 →
        (∃ a, r1 = .ok a) ∧ ∃ b, r2 = .ok b) := by
  refine ⟨refreshAll_installed s _ _, refreshAll_running s _ _, rfl, ?_, ?_, ?_⟩
  · rw [refreshAll_statusLines]
    rfl
  · simp only [refreshAll, applyRefreshUpdate]
    exact logfLine_getLast _ _
  · intro r1 r2 hmem
    cases r1 with
    | ok a =>
      cases r2 with
      | ok b => exact ⟨⟨a, rfl⟩, b, rfl⟩
      | error e =>
        exfalso
        rw [show refreshAppendedMessages (Except.ok a) (Except.error e) =
          ["Refreshing...", "Running: " ++ e.message] from rfl] at hmem
        rcases List.mem_cons.mp hmem with h | h
        · exact absurd h (by decide)
        · rcases List.mem_cons.mp h with h2 | h2
          · exact running_line_ne_refreshed e.message h2.symm
          · exact absurd h2 (List.not_mem_nil _)
    | error e =>
      exfalso
      cases r2 with
      | ok b =>
        rw [show refreshAppendedMessages (Except.error e) (Except.ok b) =
          ["Refreshing...", "Installed: " ++ e.message] from rfl] at hmem
        rcases List.mem_cons.mp hmem with h | h
        · exact absurd h (by decide)
        · rcases List.mem_cons.mp h with h2 | h2
          · exact installed_line_ne_refreshed e.message h2.symm
          · exact absurd h2 (List.not_mem_nil _)
      | error e2 =>
        rw [show refreshAppendedMessages (Except.error e) (Except.error e2) =
          ["Refreshing...", "Installed: " ++ e.message, "Running: " ++ e2.message]
          from rfl] at hmem
        rcases List.mem_cons.mp hmem with h | h
        · exact absurd h (by decide)
        · rcases List.mem_cons.mp h with h2 | h2
          · exact installed_line_ne_refreshed e.message h2.symm
          · rcases List.mem_cons.mp h2 with h3 | h3
            · exact running_line_ne_refreshed e2.message h3.symm
            · exact absurd h3 (List.not_mem_nil _)

/-- Witness for C6: a successful refresh from a concrete prior state, with
the inner implication applied at concrete results. -/
theorem refresh_both_ok_spec_witness :
    (refreshAll ⟨[], [], ["Ready"]⟩ (.ok [⟨"m1", "", 0⟩]) (.ok [])).statusLines =
      ["Ready", "Refreshing...", "Refreshed"] ∧
    ((∃ a, (Except.ok [] : Except FetchError (List Model)) = .ok a) ∧
      ∃ b, (Except.ok [] : Except FetchError (List Model)) = .ok b) := by
  have h := refresh_both_ok_spec ⟨[], [], ["Ready"]⟩ [⟨"m1", "", 0⟩] []
  refine ⟨?_, h.2.2.2.2.2 (.ok []) (.ok []) (by decide)⟩
  rw [h.2.2.2.1]
  decide

/-- Claim C7: the render projections are pure functions of state: the empty
installed list renders the single line `"(no models installed)"`; a model
with nonpositive size renders as its name alone; a model with positive
size renders as its name left-justified in a 40-character column, two
spaces, then the formatted size; the empty running list renders
`"(nothing running)"`; a non-empty running list renders one line per model
containing the name only — with the concrete examples from the spec. -/
theorem render_spec (installed running : List Model)
    (h1 : installed ≠ []) (h2 : running ≠ []) :
    drawInstalledLines [] = ["(no models installed)"] ∧
    drawRunningLines [] = ["(nothing running)"] ∧
    (drawInstalledLines installed).length = installed.length ∧
    (∀ i : Nat, (drawInstalledLines installed)[i]? =
      (installed[i]?.map fun m =>
        if m.size > 0 then padRightTo m.name 40 ++ "  " ++ HumanSize m.size
        else m.name)) ∧
    (drawRunningLines running).length = running.length ∧
    (∀ i : Nat, (drawRunningLines running)[i]? = running[i]?.map (fun m => m.name)) ∧
    drawInstalledLines [⟨"llama2:7b", "", 0⟩] = ["llama2:7b"] ∧
    drawInstalledLines [⟨"llama2:7b", "", 1073741824⟩] =
      [padRightTo "llama2:7b" 40 ++ "  " ++ "1.00 GiB"] := by
  have hi : installed.length ≠ 0 := fun hc => h1 (List.length_eq_zero.mp hc)
  have hr : running.length ≠ 0 := fun hc => h2 (List.length_eq_zero.mp hc)
  refine ⟨rfl, rfl, ?_, ?_, ?_, ?_, by decide, ?_⟩
  · simp [drawInstalledLines, hi]
  · intro i
    simp [drawInstalledLines, hi]
  · simp [drawRunningLines, hr]
  · intro i
    simp [drawRunningLines, hr]
  · rw [show drawInstalledLines [⟨"llama2:7b", "", 1073741824⟩] =
      [padRightTo "llama2:7b" 40 ++ "  " ++ HumanSize 1073741824] from rfl]
    rw [show HumanSize 1073741824 = "1.00 GiB" from by decide]

/-- Witness for C7: the projections applied to concrete one-element lists. -/
theorem render_spec_witness :
    ([⟨"m", "", 0⟩] : List Model) ≠ [] ∧
    (drawInstalledLines [⟨"m", "", 0⟩]).length = 1 := by
  refine ⟨by decide, ?_⟩
  exact (render_spec [⟨"m", "", 0⟩] [⟨"m", "", 0⟩] (by decide) (by decide)).2.2.1

/-- Claim C8: for every terminal size the layout splits the body at the
horizontal midpoint (left pane ends at column `maxX/2 - 1`, right pane
starts at `maxX/2`) and pins the status strip to the bottom two rows (body
height `maxY - 2`); when `maxY - 2 < 3` the body takes the full terminal
height instead. -/
theorem layout_spec (maxX maxY : Nat) :
    (layout maxX maxY).1.x1 = ((maxX / 2 : Nat) : Int) - 1 ∧
    (layout maxX maxY).2.1.x0 = ((maxX / 2 : Nat) : Int) ∧
    (3 ≤ (maxY : Int) - 2 →
      (layout maxX maxY).1.y1 = ((maxY : Int) - 2) - 1 ∧
      (layout maxX maxY).2.2.y0 = (maxY : Int) - 2 ∧
      (layout maxX maxY).2.2.y1 = (maxY : Int) - 1) ∧
    ((maxY : Int) - 2 < 3 →
      (layout maxX maxY).1.y1 = (maxY : Int) - 1 ∧
      (layout maxX maxY).2.2.y0 = (maxY : Int)) := by
  refine ⟨rfl, rfl, fun h => ?_, fun h => ?_⟩
  · refine ⟨?_, ?_, rfl⟩
    · rw [show (layout maxX maxY).1.y1 =
        (if (maxY : Int) - 2 < 3 then (maxY : Int) else (maxY : Int) - 2) - 1 from rfl,
        if_neg (by omega)]
    · rw [show (layout maxX maxY).2.2.y0 =
        (if (maxY : Int) - 2 < 3 then (maxY : Int) else (maxY : Int) - 2) from rfl,
        if_neg (by omega)]
  · refine ⟨?_, ?_⟩
    · rw [show (layout maxX maxY).1.y1 =
        (if (maxY : Int) - 2 < 3 then (maxY : Int) else (maxY : Int) - 2) - 1 from rfl,
        if_pos h]
    · rw [show (layout maxX maxY).2.2.y0 =
        (if (maxY : Int) - 2 < 3 then (maxY : Int) else (maxY : Int) - 2) from rfl,
        if_pos h]

/-- Witness for C8: a tall 80×24 terminal gets the bottom-two-row status
strip; a 4-row terminal gives the body the full height. -/
theorem layout_spec_witness :
    3 ≤ ((24 : Nat) : Int) - 2 ∧ (layout 80 24).2.2.y0 = ((24 : Nat) : Int) - 2 ∧
    ((4 : Nat) : Int) - 2 < 3 ∧ (layout 10 4).1.y1 = ((4 : Nat) : Int) - 1 := by
  refine ⟨by norm_num, ((layout_spec 80 24).2.2.1 (by norm_num)).2.1,
    by norm_num, ((layout_spec 10 4).2.2.2 (by norm_num)).1⟩

theorem withDeadline_ne_self : ∀ (c : Ctx) (d : Int), Ctx.withDeadline c d ≠ c := by
  intro c
  induction c with
  | background => intro d h; exact Ctx.noConfusion h
  | withDeadline p e ih =>
    intro d h
    have h2 := (Ctx.withDeadline.injEq _ _ _ _).mp h
    exact ih e (h2.1)

/-- Claim C9: `WithTimeout` with `d ≤ 0` returns the original context itself
with a cancel function that does nothing; with `d > 0` it returns a context
derived from `ctx` carrying deadline `d` and its real cancel function — and
in both cases the returned cancel never cancels the parent context `ctx`. -/
theorem withTimeout_spec (ctx : Ctx) (d : Int) :
    (d ≤ 0 → WithTimeout ctx d = (ctx, .noop) ∧ ∀ t, ¬ CancelFn.noop.cancels t) ∧
    (0 < d → (WithTimeout ctx d).1 = Ctx.withDeadline ctx d ∧
      (WithTimeout ctx d).2 = CancelFn.cancelOf (Ctx.withDeadline ctx d)) ∧
    ¬ (WithTimeout ctx d).2.cancels ctx := by
  refine ⟨fun h => ⟨?_, fun t ht => ht⟩, fun h => ?_, ?_⟩
  · simp [WithTimeout, h]
  · have hn : ¬ d ≤ 0 := by omega
    exact ⟨by simp [WithTimeout, hn], by simp [WithTimeout, hn]⟩
  · by_cases h : d ≤ 0
    · simp [WithTimeout, h, CancelFn.cancels]
    · simp only [WithTimeout, if_neg h]
      intro hc
      have hc2 : ctx = Ctx.withDeadline ctx d := hc
      exact withDeadline_ne_self ctx d hc2.symm

/-- Witness for C9: both branches applied at concrete durations. -/
theorem withTimeout_spec_witness :
    (-1 : Int) ≤ 0 ∧ WithTimeout .background (-1) = (.background, .noop) ∧
    (0 : Int) < 5 ∧ (WithTimeout .background 5).1 = .withDeadline .background 5 := by
  refine ⟨by norm_num, ((withTimeout_spec .background (-1)).1 (by norm_num)).1,
    by norm_num, ((withTimeout_spec .background 5).2.1 (by norm_num)).1⟩

/-- Claim C10: while the `gui` field is nil, `safeUpdate` schedules no GUI
operation, so `logf`, `drawInstalled`, `drawRunning` and the refresh
completion closure attempt nothing on the GUI (and, being total functions,
return normally rather than panic); `logf` still appends its message to the
bounded status-line buffer. -/
theorem safeUpdate_guard_spec (lines : List String) (msg : String)
    (installed running : List Model) (op : GuiOp) :
    safeUpdate none op = [] ∧
    (logf none lines msg).2 = [] ∧
    (logf none lines msg).1 = logfLine lines msg ∧
    msg ∈ (logf none lines msg).1 ∧
    (logf none lines msg).1.length ≤ 5 ∧
    drawInstalled none installed = [] ∧
    drawRunning none running = [] := by
  refine ⟨rfl, rfl, rfl, mem_logfLine lines msg, ?_, rfl, rfl⟩
  rw [show (logf none lines msg).1 = logfLine lines msg from rfl, logfLine_eq_lastN]
  exact lastN_length_le _

/-- Counterexample to claim C2: in the background goroutine `refreshAll`
spawns, the two endpoint fetches are not issued concurrently — the trace of
its body awaits the `/api/tags` result before the `/api/ps` request is
issued, so it is not the case that both requests precede both awaits. -/
theorem refresh_not_concurrent_counterexample :
    ¬ issuesConcurrently refreshGoroutineSteps := by decide

/-- Claim C2 (amended): each refresh launches one background unit of work
whose body issues the two endpoint fetches sequentially — `/api/tags` is
issued and awaited, then `/api/ps` is issued and awaited (the fetches are
not issued concurrently) — and both results are in hand before the single
state-mutating completion step runs, so the pair is joined before any
state mutation. -/
theorem refresh_sequential_join_spec :
    stepIdx refreshGoroutineSteps (.issue .tags) <
      stepIdx refreshGoroutineSteps (.await .tags) ∧
    stepIdx refreshGoroutineSteps (.await .tags) <
      stepIdx refreshGoroutineSteps (.issue .ps) ∧
    stepIdx refreshGoroutineSteps (.issue .ps) <
      stepIdx refreshGoroutineSteps (.await .ps) ∧
    stepIdx refreshGoroutineSteps (.await .tags) <
      stepIdx refreshGoroutineSteps .mutateState ∧
    stepIdx refreshGoroutineSteps (.await .ps) <
      stepIdx refreshGoroutineSteps .mutateState ∧
    ¬ issuesConcurrently refreshGoroutineSteps := by decide
